import Mathlib

/-!
Verification of the epic-integration OAuth demonstration client.

The definitions below are a shallow embedding of the JavaScript sources:
state-manager.js (anti-CSRF state store), oauth.js (token exchange,
profile fetch, additional resource fetch) and index.js (request
dispatch).  External effects (fetch, the system clock, the jwt-decode
library, uuid generation) are passed in explicitly as parameters, and
the observable effects of a run (POST requests issued, files written,
the HTTP response) are collected in a record.

Modelling conventions:
* Timestamps are milliseconds as integers; a Date difference in
  JavaScript is a number of milliseconds.
* JSON values are modelled by the inductive type Json; numbers are
  restricted to integers (none of the verified flows depends on
  non-integer numerals, whose float formatting is outside the model).
* JSON.parse is modelled by parseJson, JSON.stringify(v, null, 2) by
  stringifyPretty.  parseJson does not model the \u escape of
  surrogate pairs; no input used here contains one.
* A rejected fetch promise is FetchResult.reject; a settled response
  carries its numeric status and body text, and response.ok is the
  status being in the 200 to 299 range, as in the fetch standard.
-/

namespace EpicIntegration

/-! State manager (state-manager.js).  The in-memory store maps a state
string to its issuance timestamp.  The JavaScript object is modelled as
an association list; only lookup, overwrite and delete are performed on
it, so the list order is not observable. -/

/-- The store of pending state tokens: state string to issuance time. -/
abbrev StateStore := List (String × Int)

/-- STATE_TTL_MS of state-manager.js: five minutes in milliseconds. -/
def STATE_TTL_MS : Int := 5 * 60 * 1000

/-- Assignment stateStore[k] = t: any previous binding of k is replaced. -/
def storeInsert (store : StateStore) (k : String) (t : Int) : StateStore :=
  (k, t) :: store.filter (fun p => !(p.1 == k))

/-- delete stateStore[k]. -/
def storeErase (store : StateStore) (k : String) : StateStore :=
  store.filter (fun p => !(p.1 == k))

/-- generateState of state-manager.js: records the issuance time of a
fresh identifier (the uuid is an input here) and returns it. -/
def generateState (store : StateStore) (fresh : String) (now : Int) :
    String × StateStore :=
  (fresh, storeInsert store fresh now)

/-- validateState of state-manager.js: a missing token is invalid and
leaves the store unchanged; a present token is deleted from the store
and is valid exactly when the elapsed time since issuance is at most
STATE_TTL_MS. -/
def validateState (store : StateStore) (s : String) (now : Int) :
    Bool × StateStore :=
  match store.lookup s with
  | none => (false, store)
  | some ts => (decide (now - ts ≤ STATE_TTL_MS), storeErase store s)

/-- A sequence of validateState calls on one token, at the given times,
threading the store; the list of returned booleans. -/
def runValidations (store : StateStore) (s : String) : List Int → List Bool
  | [] => []
  | t :: ts =>
    (validateState store s t).1 ::
      runValidations (validateState store s t).2 s ts

/-! JSON values, JSON.stringify(v, null, 2) and JSON.parse.  Numbers are
restricted to integers (see the module comment). -/

/-- A JSON value.  Object fields keep their textual order; duplicate
keys are resolved by objInsert as JSON.parse does. -/
inductive Json where
  | null : Json
  | bool (b : Bool) : Json
  | num (n : Int) : Json
  | str (s : String) : Json
  | arr (xs : List Json) : Json
  | obj (fields : List (String × Json)) : Json

/-- Lowercase hexadecimal digit, used by the \u escapes of stringify. -/
def hexDigitLower (n : Nat) : Char :=
  if n < 10 then Char.ofNat (48 + n) else Char.ofNat (87 + n)

/-- Uppercase hexadecimal digit, used by percent encoding. -/
def hexDigitUpper (n : Nat) : Char :=
  if n < 10 then Char.ofNat (48 + n) else Char.ofNat (55 + n)

/-- How JSON.stringify renders one character inside a string literal. -/
def escChar (c : Char) : String :=
  if c = Char.ofNat 34 then "\\\""
  else if c = '\\' then "\\\\"
  else if c = '\n' then "\\n"
  else if c = '\t' then "\\t"
  else if c = '\r' then "\\r"
  else if c = Char.ofNat 8 then "\\b"
  else if c = Char.ofNat 12 then "\\f"
  else if c.toNat < 32 then
    "\\u00" ++ String.singleton (hexDigitLower (c.toNat / 16))
      ++ String.singleton (hexDigitLower (c.toNat % 16))
  else String.singleton c

/-- A JSON string literal with quotes, as JSON.stringify renders it. -/
def escapeJsonString (s : String) : String :=
  "\"" ++ String.join (s.data.map escChar) ++ "\""

/-- n spaces. -/
def indentStr (n : Nat) : String := String.mk (List.replicate n ' ')

mutual

/-- JSON.stringify(v, null, 2) at a given indentation depth. -/
def stringifyPrettyAux : Nat → Json → String
  | _, .null => "null"
  | _, .bool true => "true"
  | _, .bool false => "false"
  | _, .num n => toString n
  | _, .str s => escapeJsonString s
  | _, .arr [] => "[]"
  | ind, .arr (x :: xs) =>
    "[\n" ++ prettyItems (ind + 2) (x :: xs) ++ "\n" ++ indentStr ind ++ "]"
  | _, .obj [] => "\x7b\x7d"
  | ind, .obj (f :: fs) =>
    "\x7b\n" ++ prettyFields (ind + 2) (f :: fs) ++ "\n" ++ indentStr ind ++ "\x7d"

/-- The comma separated, indented items of a pretty printed array. -/
def prettyItems : Nat → List Json → String
  | _, [] => ""
  | ind, [x] => indentStr ind ++ stringifyPrettyAux ind x
  | ind, x :: y :: xs =>
    indentStr ind ++ stringifyPrettyAux ind x ++ ",\n" ++ prettyItems ind (y :: xs)

/-- The comma separated, indented fields of a pretty printed object. -/
def prettyFields : Nat → List (String × Json) → String
  | _, [] => ""
  | ind, [(k, v)] => indentStr ind ++ escapeJsonString k ++ ": " ++ stringifyPrettyAux ind v
  | ind, (k, v) :: g :: fs =>
    indentStr ind ++ escapeJsonString k ++ ": " ++ stringifyPrettyAux ind v
      ++ ",\n" ++ prettyFields ind (g :: fs)

end

/-- JSON.stringify(v, null, 2), the serialization oauth.js writes to
token.json and to the per resource response files. -/
def stringifyPretty (v : Json) : String := stringifyPrettyAux 0 v

/-- JSON whitespace skipping. -/
def skipWs : List Char → List Char
  | c :: cs =>
    if c = ' ' ∨ c = '\t' ∨ c = '\n' ∨ c = '\r' then skipWs cs else c :: cs
  | [] => []

/-- Value of one hexadecimal digit. -/
def hexVal (c : Char) : Option Nat :=
  if '0' ≤ c ∧ c ≤ '9' then some (c.toNat - 48)
  else if 'a' ≤ c ∧ c ≤ 'f' then some (c.toNat - 87)
  else if 'A' ≤ c ∧ c ≤ 'F' then some (c.toNat - 55)
  else none

/-- Match an expected literal character sequence. -/
def expectChars : List Char → List Char → Option (List Char)
  | [], r => some r
  | p :: ps, c :: r => if c = p then expectChars ps r else none
  | _ :: _, [] => none

/-- The body of a JSON string literal, after the opening quote: the
decoded characters and the remaining input.  Surrogate pair escapes are
not modelled. -/
def stringBody : List Char → Option (List Char × List Char)
  | [] => none
  | c :: cs =>
    if c = Char.ofNat 34 then some ([], cs)
    else if c = '\\' then
      match cs with
      | [] => none
      | e :: cs1 =>
        if e = 'u' then
          match cs1 with
          | h1 :: h2 :: h3 :: h4 :: cs2 =>
            match hexVal h1, hexVal h2, hexVal h3, hexVal h4 with
            | some a, some b, some c2, some d =>
              let n := ((a * 16 + b) * 16 + c2) * 16 + d
              if 55296 ≤ n ∧ n < 57344 then none
              else match stringBody cs2 with
                | some (s, r) => some (Char.ofNat n :: s, r)
                | none => none
            | _, _, _, _ => none
          | _ => none
        else
          match
            (if e = Char.ofNat 34 then some (Char.ofNat 34)
             else if e = '\\' then some '\\'
             else if e = '/' then some '/'
             else if e = 'b' then some (Char.ofNat 8)
             else if e = 'f' then some (Char.ofNat 12)
             else if e = 'n' then some '\n'
             else if e = 'r' then some '\r'
             else if e = 't' then some '\t'
             else none) with
          | some ch =>
            match stringBody cs1 with
            | some (s, r) => some (ch :: s, r)
            | none => none
          | none => none
    else if c.toNat < 32 then none
    else
      match stringBody cs with
      | some (s, r) => some (c :: s, r)
      | none => none

/-- List of decimal digits to a natural number. -/
def digitsToNat (ds : List Char) : Nat :=
  ds.foldl (fun a c => a * 10 + (c.toNat - 48)) 0

/-- A JSON integer numeral.  A fractional part or exponent makes the
parse fail: non-integer numbers are outside the model. -/
def parseNumber (cs : List Char) : Option (Int × List Char) :=
  let neg := cs.head? = some '-'
  let cs1 := if neg then cs.tail else cs
  let ds := cs1.takeWhile (fun c => c.isDigit)
  let rest := cs1.dropWhile (fun c => c.isDigit)
  if ds = [] then none
  else if ds.length > 1 ∧ ds.head? = some '0' then none
  else
    match rest with
    | c :: _ =>
      if c = '.' ∨ c = 'e' ∨ c = 'E' then none
      else some (if neg then -(digitsToNat ds : Int) else (digitsToNat ds : Int), rest)
    | [] => some (if neg then -(digitsToNat ds : Int) else (digitsToNat ds : Int), rest)

/-- Duplicate object keys as JSON.parse resolves them: the first
occurrence keeps its position, the last occurrence keeps its value. -/
def objInsert (k : String) (v : Json) (fs : List (String × Json)) :
    List (String × Json) :=
  match fs.lookup k with
  | some v2 => (k, v2) :: fs.filter (fun p => !(p.1 == k))
  | none => (k, v) :: fs

mutual

/-- A JSON value with leading whitespace, fuel bounded. -/
def parseVal : Nat → List Char → Option (Json × List Char)
  | 0, _ => none
  | fuel + 1, cs =>
    match skipWs cs with
    | [] => none
    | c :: rest =>
      if c = 'n' then
        match expectChars ['u', 'l', 'l'] rest with
        | some r => some (Json.null, r)
        | none => none
      else if c = 't' then
        match expectChars ['r', 'u', 'e'] rest with
        | some r => some (Json.bool true, r)
        | none => none
      else if c = 'f' then
        match expectChars ['a', 'l', 's', 'e'] rest with
        | some r => some (Json.bool false, r)
        | none => none
      else if c = Char.ofNat 34 then
        match stringBody rest with
        | some (s, r) => some (Json.str (String.mk s), r)
        | none => none
      else if c = '[' then
        match skipWs rest with
        | ']' :: r => some (Json.arr [], r)
        | _ =>
          match parseItems fuel rest with
          | some (xs, r) => some (Json.arr xs, r)
          | none => none
      else if c = '\x7b' then
        match skipWs rest with
        | '\x7d' :: r => some (Json.obj [], r)
        | _ =>
          match parseFields fuel rest with
          | some (fs, r) => some (Json.obj fs, r)
          | none => none
      else
        match parseNumber (c :: rest) with
        | some (n, r) => some (Json.num n, r)
        | none => none

/-- The elements of a JSON array after the opening bracket. -/
def parseItems : Nat → List Char → Option (List Json × List Char)
  | 0, _ => none
  | fuel + 1, cs =>
    match parseVal fuel cs with
    | none => none
    | some (v, r) =>
      match skipWs r with
      | ',' :: r1 =>
        match parseItems fuel r1 with
        | some (xs, r2) => some (v :: xs, r2)
        | none => none
      | ']' :: r1 => some ([v], r1)
      | _ => none

/-- The fields of a JSON object after the opening brace. -/
def parseFields : Nat → List Char → Option (List (String × Json) × List Char)
  | 0, _ => none
  | fuel + 1, cs =>
    match skipWs cs with
    | q :: r =>
      if q = Char.ofNat 34 then
        match stringBody r with
        | none => none
        | some (k, r1) =>
          match skipWs r1 with
          | ':' :: r2 =>
            match parseVal fuel r2 with
            | none => none
            | some (v, r3) =>
              match skipWs r3 with
              | ',' :: r4 =>
                match parseFields fuel r4 with
                | some (fs, r5) => some (objInsert (String.mk k) v fs, r5)
                | none => none
              | '\x7d' :: r4 => some ([(String.mk k, v)], r4)
              | _ => none
          | _ => none
      else none
    | [] => none

end

/-- JSON.parse: some value when the whole input is one JSON text. -/
def parseJson (s : String) : Option Json :=
  match parseVal (2 * s.length + 8) s.data with
  | some (v, r) => if skipWs r = [] then some v else none
  | none => none

/-! Percent encoding as URLSearchParams.toString performs it
(application/x-www-form-urlencoded serialization): bytes that are ASCII
alphanumeric or one of asterisk, minus, period, underscore are kept, a
space becomes plus, every other UTF-8 byte becomes a percent escape. -/

/-- The UTF-8 bytes of one character. -/
def utf8Bytes (c : Char) : List Nat :=
  let n := c.toNat
  if n < 128 then [n]
  else if n < 2048 then [192 + n / 64, 128 + n % 64]
  else if n < 65536 then [224 + n / 4096, 128 + (n / 64) % 64, 128 + n % 64]
  else [240 + n / 262144, 128 + (n / 4096) % 64, 128 + (n / 64) % 64, 128 + n % 64]

/-- Whether a byte is kept verbatim by the form-urlencoded serializer. -/
def urlSafeByte (b : Nat) : Bool :=
  (48 ≤ b ∧ b ≤ 57) ∨ (65 ≤ b ∧ b ≤ 90) ∨ (97 ≤ b ∧ b ≤ 122)
    ∨ b = 42 ∨ b = 45 ∨ b = 46 ∨ b = 95

/-- One byte of form-urlencoded output. -/
def formEncodeByte (b : Nat) : String :=
  if b = 32 then "+"
  else if urlSafeByte b then String.singleton (Char.ofNat b)
  else "%" ++ String.singleton (hexDigitUpper (b / 16))
    ++ String.singleton (hexDigitUpper (b % 16))

/-- form-urlencoded serialization of one string. -/
def formEncodeStr (s : String) : String :=
  String.join ((s.data.map utf8Bytes).flatten.map formEncodeByte)

/-- URLSearchParams(pairs).toString(). -/
def formEncode (ps : List (String × String)) : String :=
  String.intercalate "&"
    (ps.map (fun p => formEncodeStr p.1 ++ "=" ++ formEncodeStr p.2))

/-! The oauth.js token exchange pipeline. -/

/-- A JavaScript Error as oauth.js throws and formats it: message and
the optional cause option.  A missing cause prints as undefined. -/
structure JsError where
  message : String
  cause : Option String
deriving DecidableEq

/-- The body the catch block of exchangeCodeForToken writes:
template literal of error.cause, a colon and error.message. -/
def errBody (e : JsError) : String :=
  e.cause.getD "undefined" ++ ": " ++ e.message

/-- The result of one fetch call: a rejected promise, or a settled
response with its numeric status and body text. -/
inductive FetchResult where
  | reject (e : JsError)
  | resp (status : Nat) (body : String)
deriving DecidableEq

/-- response.ok of the fetch standard: status in the 200 to 299 range. -/
def respOk (status : Nat) : Bool := 200 ≤ status ∧ status < 300

/-- One POST to the token endpoint, as observed on the wire. -/
structure TokenRequest where
  url : String
  contentType : String
  body : String
deriving DecidableEq

/-- One entry of test-requests.json: a resource name and its query
parameters.  The file itself is not part of the staged sources, so the
configured list is a parameter of the model. -/
structure ResourceRequest where
  resource : String
  params : List (String × String)
deriving DecidableEq

/-- The configuration oauth.js reads from the environment. -/
structure ExchangeConfig where
  clientId : String
  clientSecret : Option String
  redirectUri : String
  authUri : String
  tokenUri : String
  epicBaseUrl : String
  scope : String
  fetchProfile : Bool
  fetchAdditional : Bool
  showToken : Bool
  requests : List ResourceRequest

/-- The external world of one callback handling: the clock, the token
endpoint, the profile endpoint (keyed by the requested url), the
jwt-decode library and the result of each successive resource GET. -/
structure ExchangeEnv where
  now : Int
  tokenFetch : TokenRequest → FetchResult
  profileFetch : String → FetchResult
  jwtDecode : String → Except JsError Json
  resourceFetch : Nat → FetchResult

/-- The query parameters of the callback request. -/
structure CallbackQuery where
  state : Option String
  code : Option String
  error : Option String
  errorDescription : Option String

/-- The observable effects of one callback handling: POSTs issued to
the token endpoint, the content written to token.json, the urls of the
resource GETs in issue order, the per resource files written, and the
HTTP response status and body seen by the user agent. -/
structure Outcome where
  posts : List TokenRequest
  persisted : Option String
  resourceAttempts : List String
  resourceWrites : List (String × String)
  status : Nat
  body : String
deriving DecidableEq

/-- The effects accumulated before the response is known. -/
structure Trace where
  posts : List TokenRequest := []
  persisted : Option String := none
  resourceAttempts : List String := []
  resourceWrites : List (String × String) := []
deriving DecidableEq

/-- The 500 response of the catch block, keeping the effects so far. -/
def errOutcome (t : Trace) (e : JsError) : Outcome :=
  { posts := t.posts, persisted := t.persisted,
    resourceAttempts := t.resourceAttempts,
    resourceWrites := t.resourceWrites,
    status := 500, body := errBody e }

/-- The property key JavaScript uses when the state query parameter is
absent: property access with an undefined key reads key "undefined". -/
def stateKey (q : CallbackQuery) : String := q.state.getD "undefined"

/-- The error actually thrown on the invalid state branch of oauth.js:
building the intended message reads the undefined identifier state, so
a ReferenceError with no cause is thrown instead of the designed
Error with cause Invalid State. -/
def stateRefError : JsError := ⟨"state is not defined", none⟩

/-- The error jwt-decode throws when its argument is not a string. -/
def invalidTokenError : JsError :=
  ⟨"Invalid token specified: must be a string", none⟩

/-- The SyntaxError response.json() raises on a non JSON body.  The
exact Node message text is not modelled; no claim depends on it. -/
def jsonParseError : JsError := ⟨"Unexpected token in JSON", none⟩

/-- The form parameters of the token POST, in source order; the secret
pair is present only when a client secret is configured. -/
def tokenRequestParams (cfg : ExchangeConfig) (code : String) :
    List (String × String) :=
  [("grant_type", "authorization_code"), ("code", code),
   ("redirect_uri", cfg.redirectUri), ("client_id", cfg.clientId)]
  ++ (match cfg.clientSecret with
      | some s => [("secret", s)]
      | none => [])

/-- The one POST exchangeCodeForToken issues for a given code. -/
def mkTokenRequest (cfg : ExchangeConfig) (code : String) : TokenRequest :=
  ⟨cfg.tokenUri, "application/x-www-form-urlencoded",
    formEncode (tokenRequestParams cfg code)⟩

/-- Field access value.key on a parsed JSON value, when it is a string. -/
def getStrField (v : Json) (k : String) : Option String :=
  match v with
  | .obj fs =>
    match fs.lookup k with
    | some (.str s) => some s
    | _ => none
  | _ => none

/-- JavaScript truthiness of a parsed JSON value. -/
def jsTruthy : Json → Bool
  | .null => false
  | .bool b => b
  | .num n => !(n == 0)
  | .str s => !(s == "")
  | .arr _ => true
  | .obj _ => true

/-- requestProfile of oauth.js: decode the id token, GET the fhirUser
url; a non success response is logged and yields no profile, a rejected
fetch or an unparsable body propagates as a thrown error. -/
def requestProfile (env : ExchangeEnv) (token : Json) :
    Except JsError (Option Json) :=
  match getStrField token "id_token" with
  | none => .error invalidTokenError
  | some idTok =>
    match env.jwtDecode idTok with
    | .error e => .error e
    | .ok decoded =>
      match env.profileFetch ((getStrField decoded "fhirUser").getD "undefined") with
      | .reject e => .error e
      | .resp status body =>
        if respOk status then
          match parseJson body with
          | none => .error jsonParseError
          | some p => .ok (some p)
        else .ok none

/-- The token review section of the success page (pages/authSuccess.js). -/
def tokenHtml (token decoded : Json) : String :=
  "\n<h2>Review token below</h2>\n<pre>\n" ++ stringifyPretty token
    ++ "\n</pre>\n\n<h3>Decoded ID Token</h3>\n<pre>\n" ++ stringifyPretty decoded
    ++ "\n</pre>\n"

/-- The profile section of the success page. -/
def profileHtml (profile : Json) : String :=
  "\n<h2>Profile Information</h2>\n<pre>\n" ++ stringifyPretty profile
    ++ "\n</pre>\n"

/-- The success page text, once the id token decoded. -/
def successBody (showToken : Bool) (token decoded : Json)
    (profile : Option Json) : String :=
  "\n<!DOCTYPE html>\n<h1>Authentication successful!</h1>\n"
  ++ (if showToken then tokenHtml token decoded else "") ++ "\n"
  ++ (match profile with
      | some p => if jsTruthy p then profileHtml p else ""
      | none => "") ++ "\n"

/-- successPage of pages/authSuccess.js: decodes the id token of the
token record (throwing like jwt-decode when it is absent or the decode
fails) and renders the page. -/
def successPage (showToken : Bool) (jwt : String → Except JsError Json)
    (token : Json) (profile : Option Json) : Except JsError String :=
  match getStrField token "id_token" with
  | none => .error invalidTokenError
  | some idTok =>
    match jwt idTok with
    | .error e => .error e
    | .ok decoded => .ok (successBody showToken token decoded profile)

/-- The url of one additional resource GET. -/
def resourceUrl (base : String) (r : ResourceRequest) : String :=
  base ++ "/" ++ r.resource ++ "?" ++ formEncode r.params

/-- testRequests of oauth.js, Bluebird.each over the configured list:
strictly sequential, one GET per entry.  A non success response is
logged and skipped; a rejected fetch or an unparsable body rejects the
iteration, which stops before the remaining entries.  Returns the trace
and the error the iteration rejected with, if any. -/
def testRequestsGo (cfg : ExchangeConfig) (env : ExchangeEnv) :
    List ResourceRequest → Nat → Trace → Trace × Option JsError
  | [], _, t => (t, none)
  | r :: rs, i, t =>
    let t1 := { t with
      resourceAttempts := t.resourceAttempts ++ [resourceUrl cfg.epicBaseUrl r] }
    match env.resourceFetch i with
    | .reject e => (t1, some e)
    | .resp status body =>
      if respOk status then
        match parseJson body with
        | none => (t1, some jsonParseError)
        | some j =>
          testRequestsGo cfg env rs (i + 1)
            { t1 with resourceWrites :=
                t1.resourceWrites ++ [(r.resource, stringifyPretty j)] }
      else testRequestsGo cfg env rs (i + 1) t1

/-- The tail of the success path: render the success page (which can
throw), answer 200, then optionally run the additional requests.  The
200 response has already been sent when testRequests runs, so an error
there no longer changes the response the user agent received; the catch
block only logs it (its second writeHead is response stream plumbing
outside the model). -/
def afterProfile (cfg : ExchangeConfig) (env : ExchangeEnv) (t : Trace)
    (token : Json) (profile : Option Json) : Outcome :=
  match successPage cfg.showToken env.jwtDecode token profile with
  | .error e => errOutcome t e
  | .ok page =>
    if cfg.fetchAdditional then
      let t1 := (testRequestsGo cfg env cfg.requests 0 t).1
      { posts := t1.posts, persisted := t1.persisted,
        resourceAttempts := t1.resourceAttempts,
        resourceWrites := t1.resourceWrites,
        status := 200, body := page }
    else
      { posts := t.posts, persisted := t.persisted,
        resourceAttempts := t.resourceAttempts,
        resourceWrites := t.resourceWrites,
        status := 200, body := page }

/-- The trace once the one token POST has been issued. -/
def postTrace (cfg : ExchangeConfig) (code : String) : Trace :=
  { posts := [mkTokenRequest cfg code] }

/-- The trace once the parsed token has been written to token.json. -/
def tokenTrace (cfg : ExchangeConfig) (code : String) (token : Json) : Trace :=
  { posts := [mkTokenRequest cfg code],
    persisted := some (stringifyPretty token) }

/-- The code exchange once state, error and code checks passed: build
the form body, POST once, then handle the response: non success status
throws the token exchange failure, an unparsable body throws, otherwise
the parsed token is persisted pretty printed and the optional profile
fetch and success rendering follow. -/
def exchangeWithCode (cfg : ExchangeConfig) (env : ExchangeEnv)
    (store1 : StateStore) (code : String) : Outcome × StateStore :=
  match env.tokenFetch (mkTokenRequest cfg code) with
  | .reject e => (errOutcome (postTrace cfg code) e, store1)
  | .resp status body =>
    if respOk status then
      match parseJson body with
      | none => (errOutcome (postTrace cfg code) jsonParseError, store1)
      | some token =>
        if cfg.fetchProfile then
          match requestProfile env token with
          | .error e => (errOutcome (tokenTrace cfg code token) e, store1)
          | .ok profile =>
            (afterProfile cfg env (tokenTrace cfg code token) token profile, store1)
        else (afterProfile cfg env (tokenTrace cfg code token) token none, store1)
    else
      (errOutcome (postTrace cfg code)
        ⟨"Token exchange failed: " ++ toString status ++ " " ++ body,
          some "Failed to get token from Epic"⟩, store1)

/-- exchangeCodeForToken of oauth.js: validate the state (consuming it),
check the provider error, check the code, then exchange.  The invalid
state branch throws stateRefError, see its docstring. -/
def exchangeCodeForToken (cfg : ExchangeConfig) (env : ExchangeEnv)
    (store : StateStore) (q : CallbackQuery) : Outcome × StateStore :=
  if (validateState store (stateKey q) env.now).1 = false then
    (errOutcome {} stateRefError, (validateState store (stateKey q) env.now).2)
  else
    match q.error with
    | some err =>
      (errOutcome {} ⟨q.errorDescription.getD "", some err⟩,
        (validateState store (stateKey q) env.now).2)
    | none =>
      match q.code with
      | none =>
        (errOutcome {} ⟨"Missing authorization code", some "Missing code"⟩,
          (validateState store (stateKey q) env.now).2)
      | some code =>
        exchangeWithCode cfg env (validateState store (stateKey q) env.now).2 code

/-! The HTTP server of index.js. -/

/-- A response as the server writes it: status, optional Location
header, body. -/
structure HttpResponse where
  status : Nat
  location : Option String
  body : String
deriving DecidableEq

/-- The home page of pages/home.js. -/
def homePage (initPath : String) : String :=
  "\n<!DOCTYPE html>\n<h1>Welcome!</h1>\n<p>To authenticate with Epic, please click the button below:</p>\n<button onclick=\"location.href=\x27" ++ initPath
    ++ "\x27\">\nAuthenticate with Epic\n</button>\n"

/-- The launch and iss query parameters of an initialization request. -/
structure AuthQuery where
  launch : Option String
  iss : Option String

/-- requestEpicAuthorization of oauth.js: append launch to the scope
when launching embedded, generate a fresh state, and redirect (302) to
the authorization uri with the form encoded parameters in source
order. -/
def requestEpicAuthorization (cfg : ExchangeConfig) (store : StateStore)
    (fresh : String) (now : Int) (q : AuthQuery) : HttpResponse × StateStore :=
  let scope := match q.launch with
    | some _ => cfg.scope ++ " launch"
    | none => cfg.scope
  let st := (generateState store fresh now).1
  let store1 := (generateState store fresh now).2
  let params :=
    [("response_type", "code"), ("client_id", cfg.clientId), ("scope", scope),
     ("redirect_uri", cfg.redirectUri), ("state", st)]
    ++ (match q.iss with | some i => [("aud", i)] | none => [])
    ++ (match q.launch with | some l => [("launch", l)] | none => [])
    ++ (match cfg.clientSecret with | some s => [("secret", s)] | none => [])
  (⟨302, some (cfg.authUri ++ "?" ++ formEncode params), ""⟩, store1)

/-- The paths the server of index.js is configured with. -/
structure ServerConfig where
  initPath : String
  callbackPath : String

/-- One request handling step: the response written and whether the
handler went on to call server.close afterwards. -/
structure ServerStep where
  response : HttpResponse
  closed : Bool
deriving DecidableEq

/-- The switch of the request listener in index.js, case by case in
source order: the home page and the initialization path return early
and keep the server alive; the callback path and the unknown path fall
through to server.close. -/
def handleRequest (scfg : ServerConfig) (cfg : ExchangeConfig)
    (env : ExchangeEnv) (store : StateStore) (pathname : String)
    (cbQuery : CallbackQuery) (authQuery : AuthQuery) (fresh : String) :
    ServerStep × StateStore :=
  if pathname = "" ∨ pathname = "/" then
    (⟨⟨200, none, homePage scfg.initPath⟩, false⟩, store)
  else if pathname = scfg.initPath then
    let r := requestEpicAuthorization cfg store fresh env.now authQuery
    (⟨r.1, false⟩, r.2)
  else if pathname = scfg.callbackPath then
    let r := exchangeCodeForToken cfg env store cbQuery
    (⟨⟨r.1.status, none, r.1.body⟩, true⟩, r.2)
  else
    (⟨⟨404, none, "Not Found"⟩, true⟩, store)

/-- A fetch result that settles (does not reject) and whose body parses
as JSON whenever the response is a success: exactly the results the
resource iteration of testRequests absorbs without rejecting. -/
def settledParses (f : FetchResult) : Bool :=
  match f with
  | .reject _ => false
  | .resp status body => !(respOk status) || (parseJson body).isSome

/-- The files the resource iteration writes when nothing rejects it:
one pretty printed body per success response, in configured order. -/
def okWrites (env : ExchangeEnv) : List ResourceRequest → Nat → List (String × String)
  | [], _ => []
  | r :: rs, i =>
    (match env.resourceFetch i with
     | .reject _ => []
     | .resp status body =>
       if respOk status then
         match parseJson body with
         | some j => [(r.resource, stringifyPretty j)]
         | none => []
       else []) ++ okWrites env rs (i + 1)

/-! Concrete fixtures used by the closed theorems. -/

/-- A concrete configuration with both optional fetches disabled. -/
def cfgA : ExchangeConfig :=
  { clientId := "client1", clientSecret := none,
    redirectUri := "http://localhost:4005/cb",
    authUri := "https://ep/auth", tokenUri := "https://ep/token",
    epicBaseUrl := "https://ep/fhir", scope := "openid fhirUser profile",
    fetchProfile := false, fetchAdditional := false, showToken := false,
    requests := [⟨"Patient", [("_id", "p1")]⟩, ⟨"Observation", []⟩,
                 ⟨"Condition", []⟩] }

/-- cfgA with FETCH_PROFILE enabled. -/
def cfgProfileA : ExchangeConfig := { cfgA with fetchProfile := true }

/-- cfgA with FETCH_ADDITIONAL_RESOURCES enabled. -/
def cfgResourcesA : ExchangeConfig := { cfgA with fetchAdditional := true }

/-- A compact JSON body as the token endpoint returns it on the wire. -/
def tokenBodyA : String := "\x7b\"access_token\":\"abc\",\"id_token\":\"jwt1\"\x7d"

/-- The value tokenBodyA parses to. -/
def tokenJsonA : Json :=
  Json.obj [("access_token", Json.str "abc"), ("id_token", Json.str "jwt1")]

/-- JSON.stringify(tokenJsonA, null, 2). -/
def tokenPrettyA : String :=
  "\x7b\n  \"access_token\": \"abc\",\n  \"id_token\": \"jwt1\"\n\x7d"

/-- The decoded payload of the fixture id token. -/
def decodedJwtA : Json :=
  Json.obj [("fhirUser", Json.str "https://ep/fhir/Practitioner/1")]

/-- A jwt-decode oracle that decodes exactly the fixture id token. -/
def jwtDecodeA : String → Except JsError Json := fun s =>
  if s = "jwt1" then .ok decodedJwtA else .error invalidTokenError

/-- A world where the token endpoint answers 200 with tokenBodyA and
the optional endpoints answer errors that are never reached. -/
def envA : ExchangeEnv :=
  { now := 1000, tokenFetch := fun _ => .resp 200 tokenBodyA,
    profileFetch := fun _ => .resp 500 "", jwtDecode := jwtDecodeA,
    resourceFetch := fun _ => .resp 500 "" }

/-- envA with a profile fetch that rejects at the transport level. -/
def envProfileRejectA : ExchangeEnv :=
  { envA with profileFetch := fun _ => .reject ⟨"fetch failed", none⟩ }

/-- envA with a profile fetch that settles on a 404. -/
def envProfileNotOkA : ExchangeEnv :=
  { envA with profileFetch := fun _ => .resp 404 "nope" }

/-- envA where the second resource GET rejects and the others succeed. -/
def envResourceRejectA : ExchangeEnv :=
  { envA with resourceFetch := fun i =>
      if i = 0 then .resp 200 "\x7b\"n\":0\x7d"
      else if i = 1 then .reject ⟨"fetch failed", none⟩
      else .resp 200 "\x7b\"n\":2\x7d" }

/-- envA where the second resource GET settles on a 404 and the others
succeed. -/
def envResourceNotOkA : ExchangeEnv :=
  { envA with resourceFetch := fun i =>
      if i = 0 then .resp 200 "\x7b\"n\":0\x7d"
      else if i = 1 then .resp 404 "nope"
      else .resp 200 "\x7b\"n\":2\x7d" }

/-- A store holding one pending state issued at time 0. -/
def storeA : StateStore := [("st1", 0)]

/-- A callback carrying the pending state and a code. -/
def queryA : CallbackQuery := ⟨some "st1", some "authcode", none, none⟩

/-- A callback with no state parameter at all, though a provider error
and a code are both present. -/
def queryNoStateA : CallbackQuery :=
  ⟨none, some "authcode", some "access_denied", some "denied"⟩

/-- A callback with a valid state but no code and no error. -/
def queryMissingCodeA : CallbackQuery := ⟨some "st1", none, none, none⟩

/-! Lemmas about the state store. -/

theorem lookup_storeErase (store : StateStore) (k : String) :
    (storeErase store k).lookup k = none := by
  induction store with
  | nil => rfl
  | cons p rest ih =>
    by_cases h : p.1 = k
    · simpa [storeErase, List.filter_cons, h] using ih
    · have hb : (p.1 == k) = false := beq_eq_false_iff_ne.mpr h
      have hb2 : (k == p.1) = false := beq_eq_false_iff_ne.mpr (Ne.symm h)
      simpa [storeErase, List.filter_cons, hb, List.lookup, hb2] using ih

theorem lookup_storeInsert (store : StateStore) (k : String) (t : Int) :
    (storeInsert store k t).lookup k = some t := by
  simp [storeInsert, List.lookup]

/-- Whatever validateState returns, the token is afterwards absent. -/
theorem lookup_validateState (store : StateStore) (s : String) (now : Int) :
    ((validateState store s now).2).lookup s = none := by
  unfold validateState
  cases h : store.lookup s with
  | none => simpa using h
  | some ts => simpa using lookup_storeErase store s

/-- A token absent from the store stays absent and every validation of
it returns false. -/
theorem runValidations_of_absent (s : String) :
    ∀ (ts : List Int) (store : StateStore), store.lookup s = none →
      runValidations store s ts = ts.map (fun _ => false) := by
  intro ts
  induction ts with
  | nil => intro store _; rfl
  | cons t rest ih =>
    intro store h
    have h1 : validateState store s t = (false, store) := by
      unfold validateState; rw [h]
    simp only [runValidations, h1, List.map]
    exact congrArg _ (ih store h)

/-! Preservation lemmas for the pipeline stages. -/

theorem testRequestsGo_posts (cfg : ExchangeConfig) (env : ExchangeEnv) :
    ∀ (rs : List ResourceRequest) (i : Nat) (t : Trace),
      (testRequestsGo cfg env rs i t).1.posts = t.posts := by
  intro rs
  induction rs with
  | nil => intro i t; rfl
  | cons r rest ih =>
    intro i t
    unfold testRequestsGo
    cases env.resourceFetch i with
    | reject e => rfl
    | resp status body =>
      dsimp only
      by_cases hok : respOk status = true
      · rw [if_pos hok]
        cases parseJson body with
        | none => rfl
        | some j => exact ih (i + 1) _
      · rw [if_neg hok]
        exact ih (i + 1) _

theorem testRequestsGo_persisted (cfg : ExchangeConfig) (env : ExchangeEnv) :
    ∀ (rs : List ResourceRequest) (i : Nat) (t : Trace),
      (testRequestsGo cfg env rs i t).1.persisted = t.persisted := by
  intro rs
  induction rs with
  | nil => intro i t; rfl
  | cons r rest ih =>
    intro i t
    unfold testRequestsGo
    cases env.resourceFetch i with
    | reject e => rfl
    | resp status body =>
      dsimp only
      by_cases hok : respOk status = true
      · rw [if_pos hok]
        cases parseJson body with
        | none => rfl
        | some j => exact ih (i + 1) _
      · rw [if_neg hok]
        exact ih (i + 1) _

theorem afterProfile_posts (cfg : ExchangeConfig) (env : ExchangeEnv)
    (t : Trace) (token : Json) (profile : Option Json) :
    (afterProfile cfg env t token profile).posts = t.posts := by
  unfold afterProfile
  cases successPage cfg.showToken env.jwtDecode token profile with
  | error e => rfl
  | ok page =>
    dsimp only
    by_cases hf : cfg.fetchAdditional = true
    · rw [if_pos hf]
      exact testRequestsGo_posts cfg env cfg.requests 0 t
    · rw [if_neg hf]

theorem afterProfile_persisted (cfg : ExchangeConfig) (env : ExchangeEnv)
    (t : Trace) (token : Json) (profile : Option Json) :
    (afterProfile cfg env t token profile).persisted = t.persisted := by
  unfold afterProfile
  cases successPage cfg.showToken env.jwtDecode token profile with
  | error e => rfl
  | ok page =>
    dsimp only
    by_cases hf : cfg.fetchAdditional = true
    · rw [if_pos hf]
      exact testRequestsGo_persisted cfg env cfg.requests 0 t
    · rw [if_neg hf]

/-- Whatever the token endpoint answers, exactly the one built POST has
been issued by the end of exchangeWithCode. -/
theorem exchangeWithCode_posts (cfg : ExchangeConfig) (env : ExchangeEnv)
    (store1 : StateStore) (code : String) :
    (exchangeWithCode cfg env store1 code).1.posts = [mkTokenRequest cfg code] := by
  unfold exchangeWithCode
  cases env.tokenFetch (mkTokenRequest cfg code) with
  | reject e => rfl
  | resp status body =>
    dsimp only
    by_cases hok : respOk status = true
    · rw [if_pos hok]
      cases parseJson body with
      | none => rfl
      | some token =>
        dsimp only
        by_cases hp : cfg.fetchProfile = true
        · rw [if_pos hp]
          cases requestProfile env token with
          | error e => rfl
          | ok profile => exact afterProfile_posts cfg env _ token profile
        · rw [if_neg hp]
          exact afterProfile_posts cfg env _ token none
    · rw [if_neg hok]
      rfl

/-! Claims about the state store. -/

/-- C2: for every state token, in any sequence of validateState calls
on that token the first call returns whatever the store and clock
dictate and every later call returns false, so true is returned at most
once, regardless of the elapsed times. -/
theorem c2_state_single_use (store : StateStore) (s : String) (t : Int)
    (ts : List Int) :
    runValidations store s (t :: ts)
        = (validateState store s t).1 :: ts.map (fun _ => false)
      ∧ (runValidations store s (t :: ts)).count true ≤ 1 := by
  have h1 : runValidations store s (t :: ts)
      = (validateState store s t).1 :: ts.map (fun _ => false) := by
    simp only [runValidations]
    exact congrArg _
      (runValidations_of_absent s ts _ (lookup_validateState store s t))
  refine ⟨h1, ?_⟩
  rw [h1]
  have h2 : ∀ (l : List Int), (l.map (fun _ => false)).count true = 0 := by
    intro l
    induction l with
    | nil => rfl
    | cons a l ihl => simpa [List.count_cons] using ihl
  cases hb : (validateState store s t).1 <;>
    simp only [List.count_cons, h2 ts] <;> simp

/-- C5: a state token first validated strictly after the five minute
TTL has elapsed is rejected even though it was never validated
before. -/
theorem c5_expired_state_invalid (store : StateStore) (u : String)
    (t0 t1 : Int) (h : STATE_TTL_MS < t1 - t0) :
    (validateState (generateState store u t0).2 u t1).1 = false := by
  unfold generateState validateState
  rw [lookup_storeInsert]
  simpa using not_le.mpr h

/-- Witness for C5 at a concrete input: issued at 0, validated at
300001 milliseconds, one past the TTL. -/
theorem c5_expired_witness :
    (validateState (generateState [] "s" 0).2 "s" 300001).1 = false :=
  c5_expired_state_invalid [] "s" 0 300001 (by decide)

/-- C9: the TTL boundary is inclusive: the first validation of a token
succeeds exactly when the elapsed time is at most STATE_TTL_MS, so it
still succeeds at exactly five minutes and fails only strictly past
them. -/
theorem c9_ttl_boundary_inclusive (store : StateStore) (u : String)
    (t0 t1 : Int) :
    (validateState (generateState store u t0).2 u t1).1 = true
      ↔ t1 - t0 ≤ STATE_TTL_MS := by
  unfold generateState validateState
  rw [lookup_storeInsert]
  simp

/-! Reduction lemmas for the branches of exchangeCodeForToken. -/

theorem exchange_invalid_state (cfg : ExchangeConfig) (env : ExchangeEnv)
    (store : StateStore) (q : CallbackQuery)
    (hv : (validateState store (stateKey q) env.now).1 = false) :
    (exchangeCodeForToken cfg env store q).1 = errOutcome {} stateRefError := by
  unfold exchangeCodeForToken
  rw [hv, if_pos rfl]

theorem exchange_provider_error (cfg : ExchangeConfig) (env : ExchangeEnv)
    (store : StateStore) (q : CallbackQuery) (err : String)
    (hv : (validateState store (stateKey q) env.now).1 = true)
    (he : q.error = some err) :
    (exchangeCodeForToken cfg env store q).1
      = errOutcome {} ⟨q.errorDescription.getD "", some err⟩ := by
  unfold exchangeCodeForToken
  rw [hv, if_neg (by simp), he]

theorem exchange_missing_code (cfg : ExchangeConfig) (env : ExchangeEnv)
    (store : StateStore) (q : CallbackQuery)
    (hv : (validateState store (stateKey q) env.now).1 = true)
    (he : q.error = none) (hc : q.code = none) :
    (exchangeCodeForToken cfg env store q).1
      = errOutcome {} ⟨"Missing authorization code", some "Missing code"⟩ := by
  unfold exchangeCodeForToken
  rw [hv, if_neg (by simp), he, hc]

theorem exchange_valid_code (cfg : ExchangeConfig) (env : ExchangeEnv)
    (store : StateStore) (q : CallbackQuery) (code : String)
    (hv : (validateState store (stateKey q) env.now).1 = true)
    (he : q.error = none) (hc : q.code = some code) :
    exchangeCodeForToken cfg env store q
      = exchangeWithCode cfg env (validateState store (stateKey q) env.now).2 code := by
  unfold exchangeCodeForToken
  rw [hv, if_neg (by simp), he, hc]

theorem exchange_token_not_ok (cfg : ExchangeConfig) (env : ExchangeEnv)
    (store : StateStore) (q : CallbackQuery) (code : String) (st : Nat)
    (b : String)
    (hv : (validateState store (stateKey q) env.now).1 = true)
    (he : q.error = none) (hc : q.code = some code)
    (hf : env.tokenFetch (mkTokenRequest cfg code) = .resp st b)
    (hnok : respOk st = false) :
    (exchangeCodeForToken cfg env store q).1
      = errOutcome (postTrace cfg code)
          ⟨"Token exchange failed: " ++ toString st ++ " " ++ b,
            some "Failed to get token from Epic"⟩ := by
  rw [exchange_valid_code cfg env store q code hv he hc]
  unfold exchangeWithCode
  rw [hf]
  dsimp only
  rw [if_neg (by simp [hnok])]

/-- Once the token endpoint answers a success status whose body parses,
the parsed value is persisted pretty printed, whatever happens later. -/
theorem exchangeWithCode_persisted (cfg : ExchangeConfig) (env : ExchangeEnv)
    (store1 : StateStore) (code : String) (status : Nat) (body : String)
    (v : Json)
    (hf : env.tokenFetch (mkTokenRequest cfg code) = .resp status body)
    (hok : respOk status = true) (hp : parseJson body = some v) :
    (exchangeWithCode cfg env store1 code).1.persisted
      = some (stringifyPretty v) := by
  unfold exchangeWithCode
  rw [hf]
  dsimp only
  rw [if_pos hok, hp]
  dsimp only
  by_cases hpr : cfg.fetchProfile = true
  · rw [if_pos hpr]
    cases requestProfile env v with
    | error e => rfl
    | ok profile => exact afterProfile_persisted cfg env _ v profile
  · rw [if_neg hpr]
    exact afterProfile_persisted cfg env _ v none

/-- The resource iteration under results it absorbs: every entry is
attempted in configured order, the success bodies are written, and the
iteration does not reject. -/
theorem testRequestsGo_settled (cfg : ExchangeConfig) (env : ExchangeEnv) :
    ∀ (rs : List ResourceRequest) (i : Nat) (t : Trace),
      (∀ j, j < rs.length → settledParses (env.resourceFetch (i + j)) = true) →
      testRequestsGo cfg env rs i t
        = ({ t with
              resourceAttempts :=
                t.resourceAttempts ++ rs.map (resourceUrl cfg.epicBaseUrl),
              resourceWrites := t.resourceWrites ++ okWrites env rs i }, none) := by
  intro rs
  induction rs with
  | nil =>
    intro i t h
    simp [testRequestsGo, okWrites]
  | cons r rest ih =>
    intro i t h
    have h0 : settledParses (env.resourceFetch i) = true := by
      simpa using h 0 (Nat.succ_pos _)
    have h1 : ∀ j, j < rest.length →
        settledParses (env.resourceFetch (i + 1 + j)) = true := by
      intro j hj
      have h2 := h (j + 1) (by simpa using Nat.succ_lt_succ hj)
      have h3 : i + (j + 1) = i + 1 + j := by omega
      rwa [h3] at h2
    unfold testRequestsGo okWrites
    cases hf : env.resourceFetch i with
    | reject e =>
      rw [hf] at h0
      simp [settledParses] at h0
    | resp status body =>
      rw [hf] at h0
      dsimp only
      by_cases hok : respOk status = true
      · rw [if_pos hok, if_pos hok]
        have hps : (parseJson body).isSome = true := by
          simpa [settledParses, hok] using h0
        cases hp : parseJson body with
        | none => rw [hp] at hps; simp at hps
        | some j =>
          dsimp only
          rw [ih (i + 1) _ h1]
          simp [List.append_assoc]
      · rw [if_neg hok, if_neg hok]
        rw [ih (i + 1) _ h1]
        simp [List.append_assoc]

/-! The claims. -/

/-- C1, counterexample: a successful exchange whose wire body is the
compact text tokenBodyA persists the pretty printed tokenPrettyA, which
is not byte for byte the body the token endpoint returned. -/
theorem c1_persisted_not_byte_identical :
    (exchangeCodeForToken cfgA envA storeA queryA).1.status = 200
    ∧ (exchangeCodeForToken cfgA envA storeA queryA).1.persisted
        = some tokenPrettyA
    ∧ tokenPrettyA ≠ tokenBodyA := by
  refine ⟨by decide, by decide, by decide⟩

/-- C1, amended: for every successful token exchange, the persisted
token record is JSON.stringify(token, null, 2), the two space pretty
printed re-serialization of the JSON value parsed from the response
body; it equals the body itself only when the body already has that
form. -/
theorem c1_persisted_pretty_reserialization (cfg : ExchangeConfig)
    (env : ExchangeEnv) (store : StateStore) (q : CallbackQuery)
    (code : String) (status : Nat) (body : String) (v : Json)
    (hv : (validateState store (stateKey q) env.now).1 = true)
    (he : q.error = none) (hc : q.code = some code)
    (hf : env.tokenFetch (mkTokenRequest cfg code) = .resp status body)
    (hok : respOk status = true) (hp : parseJson body = some v) :
    (exchangeCodeForToken cfg env store q).1.persisted
      = some (stringifyPretty v) := by
  rw [exchange_valid_code cfg env store q code hv he hc]
  exact exchangeWithCode_persisted cfg env _ code status body v hf hok hp

/-- Witness for C1 at the concrete fixture exchange. -/
theorem c1_persisted_pretty_witness :
    (exchangeCodeForToken cfgA envA storeA queryA).1.persisted
      = some (stringifyPretty tokenJsonA) :=
  c1_persisted_pretty_reserialization cfgA envA storeA queryA "authcode"
    200 tokenBodyA tokenJsonA (by decide) rfl rfl rfl (by decide) rfl

/-- C3: on a callback whose state is absent the handler answers 500
without issuing any POST and without writing a token record, and it
never reads the provider error or code parameters, which are both
present here; the response body is the one of the ReferenceError the
invalid state branch actually throws (the designed Invalid State error
is never built because its message reads the undefined identifier
state). -/
theorem c3_invalid_state_aborts_early :
    (exchangeCodeForToken cfgA envA storeA queryNoStateA).1
      = { posts := [], persisted := none, resourceAttempts := [],
          resourceWrites := [], status := 500,
          body := "undefined: state is not defined" } := by
  decide

/-- C4: on a callback with a valid unexpired state, a code and no
provider error, exactly one POST is issued to the token endpoint, form
encoded, carrying grant_type=authorization_code, the code, the
configured redirect_uri and client_id (and the secret pair only when a
client secret is configured), whatever the endpoint then answers. -/
theorem c4_exactly_one_formencoded_post (cfg : ExchangeConfig)
    (env : ExchangeEnv) (store : StateStore) (q : CallbackQuery)
    (code : String)
    (hv : (validateState store (stateKey q) env.now).1 = true)
    (he : q.error = none) (hc : q.code = some code) :
    (exchangeCodeForToken cfg env store q).1.posts
      = [⟨cfg.tokenUri, "application/x-www-form-urlencoded",
          formEncode ([("grant_type", "authorization_code"), ("code", code),
            ("redirect_uri", cfg.redirectUri), ("client_id", cfg.clientId)]
            ++ (match cfg.clientSecret with
                | some s => [("secret", s)]
                | none => []))⟩] := by
  rw [exchange_valid_code cfg env store q code hv he hc]
  rw [exchangeWithCode_posts]
  rfl

/-- Witness for C4 at the concrete fixture exchange, with the form
body fully evaluated. -/
theorem c4_exactly_one_post_witness :
    (exchangeCodeForToken cfgA envA storeA queryA).1.posts
      = [⟨"https://ep/token", "application/x-www-form-urlencoded",
          "grant_type=authorization_code&code=authcode&redirect_uri=http%3A%2F%2Flocalhost%3A4005%2Fcb&client_id=client1"⟩] := by
  rw [c4_exactly_one_formencoded_post cfgA envA storeA queryA "authcode"
    (by decide) rfl rfl]
  decide

/-- C6, counterexample: with three configured resources, a transport
level rejection of the second GET stops the iteration: the third
resource is never attempted (only two urls are fetched) and only the
first success is persisted, although the third GET would have
succeeded.  The 200 response of the exchange itself is unaffected. -/
theorem c6_reject_stops_remaining :
    (exchangeCodeForToken cfgResourcesA envResourceRejectA storeA queryA).1.resourceAttempts
        = ["https://ep/fhir/Patient?_id=p1", "https://ep/fhir/Observation?"]
    ∧ (exchangeCodeForToken cfgResourcesA envResourceRejectA storeA queryA).1.resourceWrites
        = [("Patient", "\x7b\n  \"n\": 0\n\x7d")]
    ∧ (exchangeCodeForToken cfgResourcesA envResourceRejectA storeA queryA).1.status
        = 200 := by
  refine ⟨by decide, by decide, by decide⟩

/-- C6, amended: the resource fetches are issued strictly sequentially
in configured order, and a fetch failure that settles as a non success
HTTP response does not prevent the remaining resources from being
attempted and their successful responses persisted; only a transport
level rejection (or an unparsable success body) stops the remaining
fetches. -/
theorem c6_sequential_nonok_isolated (cfg : ExchangeConfig)
    (env : ExchangeEnv)
    (h : ∀ j, j < cfg.requests.length →
      settledParses (env.resourceFetch j) = true) :
    testRequestsGo cfg env cfg.requests 0 {}
      = ({ posts := [], persisted := none,
           resourceAttempts := cfg.requests.map (resourceUrl cfg.epicBaseUrl),
           resourceWrites := okWrites env cfg.requests 0 }, none) := by
  have h0 : ∀ j, j < cfg.requests.length →
      settledParses (env.resourceFetch (0 + j)) = true := by
    intro j hj
    simpa using h j hj
  simpa using testRequestsGo_settled cfg env cfg.requests 0 {} h0

/-- Witness for C6: the second of three resources answers 404 and the
first and third are still attempted and persisted. -/
theorem c6_nonok_witness :
    testRequestsGo cfgResourcesA envResourceNotOkA cfgResourcesA.requests 0 {}
      = ({ posts := [], persisted := none,
           resourceAttempts := ["https://ep/fhir/Patient?_id=p1",
             "https://ep/fhir/Observation?", "https://ep/fhir/Condition?"],
           resourceWrites := [("Patient", "\x7b\n  \"n\": 0\n\x7d"),
             ("Condition", "\x7b\n  \"n\": 2\n\x7d")] }, none) := by
  rw [c6_sequential_nonok_isolated cfgResourcesA envResourceNotOkA (by decide)]
  decide

/-- C7, counterexample: a transport level rejection of the profile GET
after a successful exchange (the token record is persisted) makes the
whole callback answer 500, not 200. -/
theorem c7_profile_reject_fails_flow :
    (exchangeCodeForToken cfgProfileA envProfileRejectA storeA queryA).1.status
        = 500
    ∧ (exchangeCodeForToken cfgProfileA envProfileRejectA storeA queryA).1.persisted
        = some tokenPrettyA
    ∧ (exchangeCodeForToken cfgProfileA envProfileRejectA storeA queryA).1.body
        = "undefined: fetch failed" := by
  refine ⟨by decide, by decide, by decide⟩

/-- C7, amended: when profile fetch is enabled and the profile GET
settles on a non success status, the failure is non fatal: the callback
still answers 200 with the success page rendered without a profile
section, and the token record stays persisted.  A transport level
rejection, an unparsable profile body or a failing id token decode
instead aborts the callback with a 500 response. -/
theorem c7_profile_nonok_nonfatal (cfg : ExchangeConfig) (env : ExchangeEnv)
    (store : StateStore) (q : CallbackQuery) (code : String) (status : Nat)
    (body : String) (v : Json) (idt : String) (d : Json) (pst : Nat)
    (pbody : String)
    (hv : (validateState store (stateKey q) env.now).1 = true)
    (he : q.error = none) (hc : q.code = some code)
    (hf : env.tokenFetch (mkTokenRequest cfg code) = .resp status body)
    (hok : respOk status = true) (hp : parseJson body = some v)
    (hprof : cfg.fetchProfile = true)
    (hid : getStrField v "id_token" = some idt)
    (hjwt : env.jwtDecode idt = .ok d)
    (hpf : env.profileFetch ((getStrField d "fhirUser").getD "undefined")
      = .resp pst pbody)
    (hnok : respOk pst = false) :
    (exchangeCodeForToken cfg env store q).1.status = 200
    ∧ (exchangeCodeForToken cfg env store q).1.body
        = successBody cfg.showToken v d none
    ∧ (exchangeCodeForToken cfg env store q).1.persisted
        = some (stringifyPretty v) := by
  have hrp : requestProfile env v = .ok none := by
    unfold requestProfile
    rw [hid]
    dsimp only
    rw [hjwt]
    dsimp only
    rw [hpf]
    dsimp only
    rw [if_neg (by simp [hnok])]
  have hsp : successPage cfg.showToken env.jwtDecode v none
      = .ok (successBody cfg.showToken v d none) := by
    unfold successPage
    rw [hid]
    dsimp only
    rw [hjwt]
  rw [exchange_valid_code cfg env store q code hv he hc]
  unfold exchangeWithCode
  rw [hf]
  dsimp only
  rw [if_pos hok, hp]
  dsimp only
  rw [if_pos hprof, hrp]
  dsimp only
  unfold afterProfile
  rw [hsp]
  dsimp only
  by_cases hfa : cfg.fetchAdditional = true
  · rw [if_pos hfa]
    refine ⟨rfl, rfl, ?_⟩
    simpa using
      testRequestsGo_persisted cfg env cfg.requests 0 (tokenTrace cfg code v)
  · rw [if_neg hfa]
    exact ⟨rfl, rfl, rfl⟩

/-- Witness for C7 at the concrete fixture: the profile GET answers
404 and the callback still answers 200 without a profile section. -/
theorem c7_profile_nonok_witness :
    (exchangeCodeForToken cfgProfileA envProfileNotOkA storeA queryA).1.status = 200
    ∧ (exchangeCodeForToken cfgProfileA envProfileNotOkA storeA queryA).1.body
        = successBody cfgProfileA.showToken tokenJsonA decodedJwtA none
    ∧ (exchangeCodeForToken cfgProfileA envProfileNotOkA storeA queryA).1.persisted
        = some (stringifyPretty tokenJsonA) :=
  c7_profile_nonok_nonfatal cfgProfileA envProfileNotOkA storeA queryA
    "authcode" 200 tokenBodyA tokenJsonA "jwt1" decodedJwtA 404 "nope"
    (by decide) rfl rfl rfl (by decide) rfl rfl rfl rfl rfl (by decide)

/-- C8: each of the four aborts of steps 2 to 5 of the callback
handling (invalid state, provider reported error, missing code, failed
token exchange) answers 500 with a body of the form cause, colon,
message, built from the error the branch throws: the ReferenceError of
the invalid state branch, the provider error code with its description,
the missing code error, and the token exchange failure with the
endpoint status; the embedded handler is a total function, which
reflects that the try catch returns a response instead of crashing the
process. -/
theorem c8_abort_error_responses (cfg : ExchangeConfig) (env : ExchangeEnv)
    (store : StateStore) (q : CallbackQuery) :
    ((validateState store (stateKey q) env.now).1 = false →
        (exchangeCodeForToken cfg env store q).1.status = 500
        ∧ (exchangeCodeForToken cfg env store q).1.body
            = "undefined: state is not defined")
    ∧ (∀ err : String, (validateState store (stateKey q) env.now).1 = true →
        q.error = some err →
        (exchangeCodeForToken cfg env store q).1.status = 500
        ∧ (exchangeCodeForToken cfg env store q).1.body
            = err ++ ": " ++ q.errorDescription.getD "")
    ∧ ((validateState store (stateKey q) env.now).1 = true → q.error = none →
        q.code = none →
        (exchangeCodeForToken cfg env store q).1.status = 500
        ∧ (exchangeCodeForToken cfg env store q).1.body
            = "Missing code: Missing authorization code")
    ∧ (∀ (code : String) (st : Nat) (b : String),
        (validateState store (stateKey q) env.now).1 = true → q.error = none →
        q.code = some code →
        env.tokenFetch (mkTokenRequest cfg code) = .resp st b →
        respOk st = false →
        (exchangeCodeForToken cfg env store q).1.status = 500
        ∧ (exchangeCodeForToken cfg env store q).1.body
            = "Failed to get token from Epic: Token exchange failed: "
                ++ toString st ++ " " ++ b) := by
  refine ⟨?_, ?_, ?_, ?_⟩
  · intro hv
    rw [exchange_invalid_state cfg env store q hv]
    exact ⟨rfl, rfl⟩
  · intro err hv he
    rw [exchange_provider_error cfg env store q err hv he]
    exact ⟨rfl, rfl⟩
  · intro hv he hc
    rw [exchange_missing_code cfg env store q hv he hc]
    exact ⟨rfl, rfl⟩
  · intro code st b hv he hc hf hnok
    rw [exchange_token_not_ok cfg env store q code st b hv he hc hf hnok]
    refine ⟨rfl, ?_⟩
    dsimp only [errOutcome, errBody, Option.getD]
    simp only [← String.append_assoc]
    rfl

/-- Witness for C8: the missing code abort at a concrete callback. -/
theorem c8_abort_witness :
    (exchangeCodeForToken cfgA envA storeA queryMissingCodeA).1.status = 500
    ∧ (exchangeCodeForToken cfgA envA storeA queryMissingCodeA).1.body
        = "Missing code: Missing authorization code" :=
  (c8_abort_error_responses cfgA envA storeA queryMissingCodeA).2.2.1
    (by decide) rfl rfl

/-- C10: the request listener of index.js closes the server after
handling a request to the callback path, whatever the exchange outcome
is, and after a request to any unknown path; only the home page and the
initialization path return early and keep the server listening.  The
callback and unknown conjuncts assume the configured paths do not
collide with the earlier switch cases, which match first. -/
theorem c10_close_after_callback_or_unknown (scfg : ServerConfig)
    (cfg : ExchangeConfig) (env : ExchangeEnv) (store : StateStore)
    (cbq : CallbackQuery) (aq : AuthQuery) (fresh : String) :
    (handleRequest scfg cfg env store "" cbq aq fresh).1.closed = false
    ∧ (handleRequest scfg cfg env store "/" cbq aq fresh).1.closed = false
    ∧ (handleRequest scfg cfg env store scfg.initPath cbq aq fresh).1.closed
        = false
    ∧ (scfg.callbackPath ≠ "" → scfg.callbackPath ≠ "/" →
        scfg.callbackPath ≠ scfg.initPath →
        (handleRequest scfg cfg env store scfg.callbackPath cbq aq fresh).1.closed
          = true)
    ∧ (∀ p : String, p ≠ "" → p ≠ "/" → p ≠ scfg.initPath →
        p ≠ scfg.callbackPath →
        (handleRequest scfg cfg env store p cbq aq fresh).1.closed = true) := by
  refine ⟨?_, ?_, ?_, ?_, ?_⟩
  · simp [handleRequest]
  · simp [handleRequest]
  · by_cases h : scfg.initPath = "" ∨ scfg.initPath = "/"
    · simp [handleRequest, h]
    · simp [handleRequest, h]
  · intro h1 h2 h3
    simp [handleRequest, h1, h2, h3]
  · intro p h1 h2 h3 h4
    simp [handleRequest, h1, h2, h3, h4]

/-- Witness for C10 at concrete paths: a callback request closes the
server even though the exchange aborts (invalid state). -/
theorem c10_close_witness :
    (handleRequest ⟨"/init", "/cb"⟩ cfgA envA [] "/cb" queryNoStateA
      ⟨none, none⟩ "u1").1.closed = true :=
  ((c10_close_after_callback_or_unknown ⟨"/init", "/cb"⟩ cfgA envA []
      queryNoStateA ⟨none, none⟩ "u1").2.2.2.1)
    (by decide) (by decide) (by decide)

end EpicIntegration
